import Mathlib

/-!
Verification of the tabular-data-access core of `src/app.py`:

* `a1_to_index` (src/app.py:81-92): resolve a spreadsheet cell reference
  such as `"M19"` into a zero-based `(row, column)` coordinate pair, the
  column letters read as a bijective base-26 number.
* `get_a1` (src/app.py:95-102): look a cell up in a ragged table of
  strings by reference, substituting a default when the coordinate is out
  of range or the trimmed cell is empty.
* `fetch_gviz_csv` (src/app.py:57-78): fetch a CSV document over HTTP
  with a TTL cache keyed by URL (`GVIZ_CACHE`, src/app.py:55), reject
  error statuses and HTML bodies, and parse the body with `csv.reader`.

Python strings are embedded as `String` / `List Char`; `str.strip()`,
`str.upper()`, `str.splitlines()` and the default-dialect `csv.reader`
are modelled character by character for the ASCII inputs this program
handles.  Machine time (`now_tw().timestamp()`, a float) is modelled as
an integer timestamp; only order and addition of timestamps matter to
the code.  A raised exception is modelled as `none` / `Except.error`.
-/

namespace App

/-- Python `str.strip()` on a character list: drop whitespace from both ends. -/
def pyStrip (l : List Char) : List Char :=
  ((l.dropWhile Char.isWhitespace).reverse.dropWhile Char.isWhitespace).reverse

/-- Python `str.upper()` (ASCII): uppercase every character. -/
def pyUpper (l : List Char) : List Char := l.map Char.toUpper

/-- Python `int(row_digits)` for a string of decimal digits `0`-`9`. -/
def digitsVal (l : List Char) : Nat := l.foldl (fun a c => a * 10 + (c.toNat - 48)) 0

/-- The column loop of `a1_to_index` (src/app.py:89-91):
`col_num = col_num * 26 + (ord(ch) - ord('A') + 1)` over the (already
upper-cased) column letters, so each step adds `ch.toNat - 64`. -/
def colVal (l : List Char) : Nat := l.foldl (fun a c => a * 26 + (c.toNat - 64)) 0

/-- `a1_to_index` (src/app.py:81-92).  Strip and upper-case the input, scan
the leading alphabetic run as the column letters, require the remainder to
be a non-empty digit string, and return the zero-based
`(row, column) = (int(row_digits) - 1, col_num - 1)` pair.  `none` models
the `ValueError("Invalid A1: ...")` raise. -/
def a1_to_index (a1 : String) : Option (Int × Int) :=
  let s := pyUpper (pyStrip a1.data)
  let col_letters := s.takeWhile Char.isAlpha
  let row_digits := s.dropWhile Char.isAlpha
  if col_letters = [] ∨ row_digits = [] ∨ ¬ (row_digits.all Char.isDigit) then
    none
  else
    some ((digitsVal row_digits : Int) - 1, (colVal col_letters : Int) - 1)

/-- `get_a1` (src/app.py:95-102).  Resolve the reference (propagating its
failure as `none`), return the default when the row or column index is out
of range, otherwise the cell trimmed, or the default when that is empty. -/
def get_a1 (rows : List (List String)) (a1 : String) (dflt : String) : Option String :=
  match a1_to_index a1 with
  | none => none
  | some (r, c) =>
      if r < 0 ∨ (rows.length : Int) ≤ r then some dflt
      else
        let row := rows.getD r.toNat []
        if c < 0 ∨ (row.length : Int) ≤ c then some dflt
        else
          let cell := String.mk (pyStrip (row.getD c.toNat "").data)
          some (if cell = "" then dflt else cell)

/-- A parsed CSV document: a ragged list of rows of string cells. -/
abbrev Table := List (List String)

/-- The process-wide `GVIZ_CACHE` dict (src/app.py:55): URL ↦ (expiry
timestamp, cached rows). -/
abbrev Cache := String → Option (Int × Table)

/-- An HTTP response as `fetch_gviz_csv` consumes it: status code and text body. -/
structure HttpResp where
  status : Nat
  body : String

/-- `requests.Response.raise_for_status` raises exactly for 4xx/5xx codes. -/
def isErrorStatus (status : Nat) : Bool :=
  decide (400 ≤ status) && decide (status < 600)

/-- The failures of `fetch_gviz_csv`: `transport` models the
`requests.HTTPError` from `raise_for_status` (carrying the status code) and
timeouts; `format` models the `RuntimeError` raised for an HTML body. -/
inductive FetchError where
  | transport (status : Nat)
  | format
  deriving DecidableEq, Repr

/-- Python `str.splitlines()` for the line boundaries `\r\n`, `\r`, `\n`
(the only ones occurring in CSV text); the second argument accumulates the
current line. -/
def splitlines : List Char → List Char → List String
  | [], cur => if cur.isEmpty then [] else [String.mk cur]
  | '\r' :: '\n' :: rest, cur => String.mk cur :: splitlines rest []
  | '\r' :: rest, cur => String.mk cur :: splitlines rest []
  | '\n' :: rest, cur => String.mk cur :: splitlines rest []
  | c :: rest, cur => splitlines rest (cur ++ [c])

/-- One record of Python `csv.reader` (default dialect) on a single line:
comma delimiter, `"` quote character, a quote opens a field only at the
field start, a doubled quote inside a quoted field is an escaped quote.
Arguments: remaining input, current field, inside-quotes flag, fields so
far. -/
def csvRecord : List Char → List Char → Bool → List String → List String
  | [], cur, _, acc => acc ++ [String.mk cur]
  | '"' :: '"' :: rest, cur, true, acc => csvRecord rest (cur ++ ['"']) true acc
  | '"' :: rest, cur, true, acc => csvRecord rest cur false acc
  | c :: rest, cur, true, acc => csvRecord rest (cur ++ [c]) true acc
  | ',' :: rest, cur, false, acc => csvRecord rest [] false (acc ++ [String.mk cur])
  | '"' :: rest, cur, false, acc =>
      if cur = [] then csvRecord rest [] true acc
      else csvRecord rest (cur ++ ['"']) false acc
  | c :: rest, cur, false, acc => csvRecord rest (cur ++ [c]) false acc

/-- Python `list(csv.reader(lines))` for line-per-record input
(src/app.py:71); an empty input line yields an empty record. -/
def csv_reader (lines : List String) : List (List String) :=
  lines.map fun l => if l.data = [] then [] else csvRecord l.data [] false []

/-- The network path of `fetch_gviz_csv` (src/app.py:66-78): issue the GET,
raise for an error status, strip the body, reject an HTML document marker,
parse the CSV, store `(now + ttl, rows)` in the cache under `url` and
return the rows.  The `Nat` component counts network calls (always 1 on
this path). -/
def fetchNetwork (net : String → HttpResp) (now ttl : Int) (cache : Cache)
    (url : String) : Except FetchError (Table × Cache × Nat) :=
  let resp := net url
  if isErrorStatus resp.status then
    .error (.transport resp.status)
  else
    let text := pyStrip resp.body.data
    if List.isPrefixOf "<!DOCTYPE html".data text then
      .error .format
    else
      let rows := csv_reader (splitlines text [])
      .ok (rows, fun u => if u = url then some (now + ttl, rows) else cache u, 1)

/-- `fetch_gviz_csv` (src/app.py:57-78).  Serve the cached rows when the
stored expiry is strictly in the future (`exp_ts > now`), otherwise go to
the network.  The result carries the returned table, the cache after the
call, and the number of network calls performed (0 or 1). -/
def fetch_gviz_csv (net : String → HttpResp) (now ttl : Int) (cache : Cache)
    (url : String) : Except FetchError (Table × Cache × Nat) :=
  match cache url with
  | some (exp_ts, cached_rows) =>
      if now < exp_ts then .ok (cached_rows, cache, 0)
      else fetchNetwork net now ttl cache url
  | none => fetchNetwork net now ttl cache url

/-- Modelled from the spec: "row index + 1 as digits" — the decimal digit
string of a natural number (most significant digit first). -/
def natDigits (n : Nat) : List Char :=
  if h : n < 10 then [Char.ofNat (48 + n)]
  else natDigits (n / 10) ++ [Char.ofNat (48 + n % 10)]
decreasing_by exact Nat.div_lt_self (by omega) (by omega)

/-- Modelled from the spec: "column index + 1 in bijective base-26
letters" — the letter string of a positive column number
(A=1, …, Z=26, AA=27, …). -/
def bijEncode : Nat → List Char
  | 0 => []
  | n + 1 => bijEncode (n / 26) ++ [Char.ofNat (65 + n % 26)]
decreasing_by exact Nat.lt_succ_of_le (Nat.div_le_self n 26)

/-- Modelled from the spec: re-encode a zero-based coordinate as a cell
reference, column letters first, then row digits. -/
def encodeRef (r c : Nat) : String :=
  String.mk (bijEncode (c + 1) ++ natDigits (r + 1))

/-- The shape the spec's parsing rule describes on a raw character list: a
non-empty leading run of alphabetic characters whose remainder is a
non-empty all-decimal-digit suffix (the syntax `^[A-Za-z]+[0-9]+$`). -/
def refShape (l : List Char) : Prop :=
  l.takeWhile Char.isAlpha ≠ [] ∧ l.dropWhile Char.isAlpha ≠ [] ∧
    (l.dropWhile Char.isAlpha).all Char.isDigit = true

instance : DecidablePred refShape := fun l => by unfold refShape; infer_instance

/-! ### Character-level facts about the ASCII predicates and `Char.toUpper` -/

theorem isLower_iff (c : Char) : c.isLower = true ↔ 97 ≤ c.toNat ∧ c.toNat ≤ 122 := by
  simp [Char.isLower, Char.toNat, UInt32.le_def, BitVec.le_def, UInt32.toNat]

theorem isUpper_iff (c : Char) : c.isUpper = true ↔ 65 ≤ c.toNat ∧ c.toNat ≤ 90 := by
  simp [Char.isUpper, Char.toNat, UInt32.le_def, BitVec.le_def, UInt32.toNat]

theorem isDigit_iff (c : Char) : c.isDigit = true ↔ 48 ≤ c.toNat ∧ c.toNat ≤ 57 := by
  simp [Char.isDigit, Char.toNat, UInt32.le_def, BitVec.le_def, UInt32.toNat]

theorem isAlpha_iff (c : Char) :
    c.isAlpha = true ↔ (65 ≤ c.toNat ∧ c.toNat ≤ 90) ∨ (97 ≤ c.toNat ∧ c.toNat ≤ 122) := by
  simp [Char.isAlpha, isUpper_iff, isLower_iff]

theorem toNat_ofNat_valid (n : Nat) (h : n < 55296) : (Char.ofNat n).toNat = n := by
  have hv : n.isValidChar := Or.inl h
  rw [Char.ofNat, dif_pos hv]
  simp [Char.ofNatAux, Char.toNat, UInt32.toNat]

theorem toUpper_toNat_of_lower (c : Char) (h : 97 ≤ c.toNat ∧ c.toNat ≤ 122) :
    (Char.toUpper c).toNat = c.toNat - 32 := by
  rw [Char.toUpper, if_pos h]
  exact toNat_ofNat_valid _ (by omega)

theorem toUpper_of_not_lower (c : Char) (h : ¬ (97 ≤ c.toNat ∧ c.toNat ≤ 122)) :
    Char.toUpper c = c := by
  rw [Char.toUpper, if_neg h]

theorem toUpper_toNat_range (c : Char) (h : c.isAlpha = true) :
    65 ≤ (Char.toUpper c).toNat ∧ (Char.toUpper c).toNat ≤ 90 := by
  rcases (isAlpha_iff c).mp h with h' | h'
  · rw [toUpper_of_not_lower c (by omega)]; exact h'
  · rw [toUpper_toNat_of_lower c h']; omega

theorem isAlpha_toUpper (c : Char) : (Char.toUpper c).isAlpha = c.isAlpha := by
  by_cases h : 97 ≤ c.toNat ∧ c.toNat ≤ 122
  · have h1 := toUpper_toNat_of_lower c h
    rw [Bool.eq_iff_iff, isAlpha_iff, isAlpha_iff]
    omega
  · rw [toUpper_of_not_lower c h]

theorem isDigit_toUpper (c : Char) : (Char.toUpper c).isDigit = c.isDigit := by
  by_cases h : 97 ≤ c.toNat ∧ c.toNat ≤ 122
  · have h1 := toUpper_toNat_of_lower c h
    rw [Bool.eq_iff_iff, isDigit_iff, isDigit_iff]
    omega
  · rw [toUpper_of_not_lower c h]

theorem toUpper_of_digit (c : Char) (h : c.isDigit = true) : Char.toUpper c = c := by
  have := (isDigit_iff c).mp h
  exact toUpper_of_not_lower c (by omega)

theorem toUpper_toUpper (c : Char) : Char.toUpper (Char.toUpper c) = Char.toUpper c := by
  by_cases h : 97 ≤ c.toNat ∧ c.toNat ≤ 122
  · have h1 := toUpper_toNat_of_lower c h
    exact toUpper_of_not_lower _ (by omega)
  · rw [toUpper_of_not_lower c h, toUpper_of_not_lower c h]

theorem isWhitespace_eq_false (c : Char) (h : 48 ≤ c.toNat) : c.isWhitespace = false := by
  simp only [Char.isWhitespace, Bool.or_eq_false_iff, decide_eq_false_iff_not]
  refine ⟨⟨⟨?_, ?_⟩, ?_⟩, ?_⟩ <;> rintro rfl <;> revert h <;> decide

theorem isWhitespace_toUpper (c : Char) :
    (Char.toUpper c).isWhitespace = c.isWhitespace := by
  by_cases h : 97 ≤ c.toNat ∧ c.toNat ≤ 122
  · have h1 := toUpper_toNat_of_lower c h
    rw [isWhitespace_eq_false _ (by omega), isWhitespace_eq_false _ (by omega)]
  · rw [toUpper_of_not_lower c h]

theorem isWhitespace_of_isAlpha (c : Char) (h : c.isAlpha = true) :
    c.isWhitespace = false :=
  isWhitespace_eq_false c (by rcases (isAlpha_iff c).mp h with h' | h' <;> omega)

theorem isWhitespace_of_isDigit (c : Char) (h : c.isDigit = true) :
    c.isWhitespace = false :=
  isWhitespace_eq_false c (by have := (isDigit_iff c).mp h; omega)

theorem isAlpha_of_isDigit (c : Char) (h : c.isDigit = true) : c.isAlpha = false := by
  have := (isDigit_iff c).mp h
  rw [Bool.eq_false_iff]
  intro h'
  rcases (isAlpha_iff c).mp h' with h'' | h'' <;> omega

/-! ### List helpers for `takeWhile`, `dropWhile` and the Python string ops -/

theorem dropWhile_eq_self_of_all_neg {p : Char → Bool} {l : List Char}
    (h : ∀ a ∈ l, p a = false) : l.dropWhile p = l := by
  cases l with
  | nil => rfl
  | cons a t => rw [List.dropWhile_cons, h a (by simp)]; simp

theorem takeWhile_eq_nil_of_all_neg {p : Char → Bool} {l : List Char}
    (h : ∀ a ∈ l, p a = false) : l.takeWhile p = [] := by
  cases l with
  | nil => rfl
  | cons a t => rw [List.takeWhile_cons, h a (by simp)]; simp

theorem dropWhile_head_neg {p : Char → Bool} :
    ∀ {l t : List Char} {a : Char}, l.dropWhile p = a :: t → p a = false := by
  intro l
  induction l with
  | nil => intro t a h; simp at h
  | cons b l' ih =>
      intro t a h
      rw [List.dropWhile_cons] at h
      by_cases hb : p b = true
      · rw [if_pos hb] at h; exact ih h
      · rw [if_neg hb] at h
        cases h
        simpa using hb

theorem dropWhile_eq_nil_of_all_pos {p : Char → Bool} {l : List Char}
    (h : ∀ a ∈ l, p a = true) : l.dropWhile p = [] := by
  induction l with
  | nil => rfl
  | cons a t ih =>
      rw [List.dropWhile_cons, if_pos (h a (by simp))]
      exact ih fun a ha => h a (by simp [ha])

theorem mk_data (s : String) : String.mk s.data = s := rfl

/-! ### Properties of the Python string operations `strip` and `upper` -/

theorem pyStrip_of_all_nonws {l : List Char} (h : ∀ c ∈ l, c.isWhitespace = false) :
    pyStrip l = l := by
  unfold pyStrip
  rw [dropWhile_eq_self_of_all_neg h,
    dropWhile_eq_self_of_all_neg (fun c hc => h c (List.mem_reverse.mp hc)),
    List.reverse_reverse]

theorem pyStrip_append_of_ws {pre l post : List Char}
    (hpre : ∀ c ∈ pre, c.isWhitespace = true) (hpost : ∀ c ∈ post, c.isWhitespace = true) :
    pyStrip (pre ++ l ++ post) = pyStrip l := by
  unfold pyStrip
  rw [List.append_assoc, List.dropWhile_append_of_pos hpre, List.dropWhile_append]
  by_cases h1 : (l.dropWhile Char.isWhitespace).isEmpty
  · rw [if_pos h1, dropWhile_eq_nil_of_all_pos hpost]
    rw [List.isEmpty_iff] at h1
    rw [h1]
  · rw [if_neg h1, List.reverse_append,
      List.dropWhile_append_of_pos (fun c hc => hpost c (List.mem_reverse.mp hc))]

theorem pyStrip_idem (l : List Char) : pyStrip (pyStrip l) = pyStrip l := by
  have hdecomp : l = l.takeWhile Char.isWhitespace ++ pyStrip l ++
      ((l.dropWhile Char.isWhitespace).reverse.takeWhile Char.isWhitespace).reverse := by
    conv_lhs => rw [← List.takeWhile_append_dropWhile (p := Char.isWhitespace) (l := l)]
    rw [List.append_assoc]
    congr 1
    conv_lhs => rw [← List.reverse_reverse (l.dropWhile Char.isWhitespace)]
    conv_lhs =>
      rw [← List.takeWhile_append_dropWhile (p := Char.isWhitespace)
        (l := (l.dropWhile Char.isWhitespace).reverse)]
    rw [List.reverse_append]
    rfl
  conv_rhs => rw [hdecomp]
  rw [pyStrip_append_of_ws (fun c hc => List.mem_takeWhile_imp hc)
    (fun c hc => List.mem_takeWhile_imp (List.mem_reverse.mp hc))]

theorem pyUpper_pyStrip (l : List Char) : pyStrip (pyUpper l) = pyUpper (pyStrip l) := by
  have hws : (Char.isWhitespace ∘ Char.toUpper) = Char.isWhitespace :=
    funext isWhitespace_toUpper
  unfold pyStrip pyUpper
  rw [List.dropWhile_map, hws, ← List.map_reverse, List.dropWhile_map, hws, ← List.map_reverse]

theorem pyUpper_idem (l : List Char) : pyUpper (pyUpper l) = pyUpper l := by
  have h : (Char.toUpper ∘ Char.toUpper) = Char.toUpper := funext toUpper_toUpper
  unfold pyUpper
  rw [List.map_map, h]

theorem a1_to_index_congr {x y : List Char}
    (h : pyUpper (pyStrip x) = pyUpper (pyStrip y)) :
    a1_to_index (String.mk x) = a1_to_index (String.mk y) := by
  unfold a1_to_index
  rw [show (String.mk x).data = x from rfl, show (String.mk y).data = y from rfl, h]

theorem a1_to_index_ws_invariant (s : String) (pre post : List Char)
    (hpre : ∀ c ∈ pre, c.isWhitespace = true) (hpost : ∀ c ∈ post, c.isWhitespace = true) :
    a1_to_index (String.mk (pre ++ s.data ++ post)) = a1_to_index s := by
  have h := a1_to_index_congr (x := pre ++ s.data ++ post) (y := s.data)
    (by rw [pyStrip_append_of_ws hpre hpost])
  rwa [mk_data] at h

theorem a1_to_index_norm (s : String) :
    a1_to_index s = a1_to_index (String.mk (pyUpper (pyStrip s.data))) := by
  have h := a1_to_index_congr (x := s.data) (y := pyUpper (pyStrip s.data))
    (by rw [pyUpper_pyStrip, pyStrip_idem, pyUpper_idem])
  rwa [mk_data] at h

/-! ### Decimal digit strings and bijective base-26 letter strings -/

theorem digitsVal_append (a : List Char) (c : Char) :
    digitsVal (a ++ [c]) = digitsVal a * 10 + (c.toNat - 48) := by
  unfold digitsVal
  rw [List.foldl_append]
  rfl

theorem colVal_append (a : List Char) (c : Char) :
    colVal (a ++ [c]) = colVal a * 26 + (c.toNat - 64) := by
  unfold colVal
  rw [List.foldl_append]
  rfl

theorem colVal_foldl_ge (l : List Char) (acc : Nat) :
    acc ≤ l.foldl (fun a c => a * 26 + (c.toNat - 64)) acc := by
  induction l generalizing acc with
  | nil => exact Nat.le_refl acc
  | cons c t ih =>
      rw [List.foldl_cons]
      exact Nat.le_trans (by omega) (ih (acc * 26 + (c.toNat - 64)))

theorem colVal_pos {l : List Char} (hne : l ≠ []) (h : ∀ c ∈ l, 65 ≤ c.toNat) :
    1 ≤ colVal l := by
  cases l with
  | nil => cases hne rfl
  | cons c t =>
      unfold colVal
      rw [List.foldl_cons]
      refine Nat.le_trans ?_ (colVal_foldl_ge t _)
      have := h c (by simp)
      omega

theorem natDigits_lt10 {n : Nat} (h : n < 10) : natDigits n = [Char.ofNat (48 + n)] := by
  rw [natDigits]
  exact dif_pos h

theorem natDigits_ge10 {n : Nat} (h : ¬ n < 10) :
    natDigits n = natDigits (n / 10) ++ [Char.ofNat (48 + n % 10)] := by
  rw [natDigits]
  exact dif_neg h

theorem digit_char_toNat {d : Nat} (h : d < 10) : (Char.ofNat (48 + d)).toNat = 48 + d :=
  toNat_ofNat_valid _ (by omega)

theorem natDigits_isDigit (n : Nat) : ∀ c ∈ natDigits n, c.isDigit = true := by
  induction n using Nat.strong_induction_on with
  | _ n ih =>
      by_cases h : n < 10
      · rw [natDigits_lt10 h]
        intro c hc
        simp only [List.mem_singleton] at hc
        subst hc
        rw [isDigit_iff, digit_char_toNat h]
        omega
      · rw [natDigits_ge10 h]
        intro c hc
        rcases List.mem_append.mp hc with hc | hc
        · exact ih (n / 10) (Nat.div_lt_self (by omega) (by omega)) c hc
        · simp only [List.mem_singleton] at hc
          subst hc
          rw [isDigit_iff, digit_char_toNat (Nat.mod_lt _ (by omega))]
          omega

theorem natDigits_ne_nil (n : Nat) : natDigits n ≠ [] := by
  by_cases h : n < 10
  · rw [natDigits_lt10 h]; simp
  · rw [natDigits_ge10 h]; simp

theorem digitsVal_natDigits (n : Nat) : digitsVal (natDigits n) = n := by
  induction n using Nat.strong_induction_on with
  | _ n ih =>
      by_cases h : n < 10
      · rw [natDigits_lt10 h]
        show 0 * 10 + ((Char.ofNat (48 + n)).toNat - 48) = n
        rw [digit_char_toNat h]
        omega
      · rw [natDigits_ge10 h, digitsVal_append,
          ih (n / 10) (Nat.div_lt_self (by omega) (by omega)),
          digit_char_toNat (Nat.mod_lt _ (by omega))]
        omega

theorem bijEncode_zero : bijEncode 0 = [] := by
  rw [bijEncode]

theorem bijEncode_succ (m : Nat) :
    bijEncode (m + 1) = bijEncode (m / 26) ++ [Char.ofNat (65 + m % 26)] := by
  rw [bijEncode]

/-- `bijEncode` is a left inverse of the column-value loop on upper-case
letter strings: decoding then re-encoding restores the letters. -/
theorem bijEncode_colVal : ∀ M : List Char,
    (∀ c ∈ M, 65 ≤ c.toNat ∧ c.toNat ≤ 90) → bijEncode (colVal M) = M := by
  intro M
  induction M using List.reverseRecOn with
  | nil => intro _; exact bijEncode_zero
  | append_singleton M c ih =>
      intro h
      have hc := h c (by simp)
      have hM : ∀ x ∈ M, 65 ≤ x.toNat ∧ x.toNat ≤ 90 := fun x hx => h x (by simp [hx])
      rw [colVal_append]
      have hm : colVal M * 26 + (c.toNat - 64) = (colVal M * 26 + (c.toNat - 64) - 1) + 1 := by
        omega
      rw [hm, bijEncode_succ]
      have h1 : (colVal M * 26 + (c.toNat - 64) - 1) / 26 = colVal M := by omega
      have h2 : 65 + (colVal M * 26 + (c.toNat - 64) - 1) % 26 = c.toNat := by omega
      rw [h1, h2, ih hM, Char.ofNat_toNat]

/-! ### The parse of a well-shaped reference -/

/-- `a1_to_index` on letters followed by digits: the row is
`int(digits) - 1` and the column is the bijective base-26 value of the
upper-cased letters minus 1. -/
theorem a1_to_index_of_shape (A D : List Char) (hA : A ≠ [])
    (halpha : ∀ c ∈ A, c.isAlpha = true) (hD : D ≠ [])
    (hdig : ∀ c ∈ D, c.isDigit = true) :
    a1_to_index (String.mk (A ++ D)) =
      some ((digitsVal D : Int) - 1, (colVal (pyUpper A) : Int) - 1) := by
  unfold a1_to_index
  rw [show (String.mk (A ++ D)).data = A ++ D from rfl]
  have hnows : ∀ c ∈ A ++ D, c.isWhitespace = false := by
    intro c hc
    rcases List.mem_append.mp hc with hc | hc
    · exact isWhitespace_of_isAlpha c (halpha c hc)
    · exact isWhitespace_of_isDigit c (hdig c hc)
  rw [pyStrip_of_all_nonws hnows]
  have hD' : D.map Char.toUpper = D := by
    have h1 : D.map Char.toUpper = D.map id :=
      List.map_congr_left fun c hc => toUpper_of_digit c (hdig c hc)
    rw [h1, List.map_id]
  have hsplit : pyUpper (A ++ D) = pyUpper A ++ D := by
    unfold pyUpper
    rw [List.map_append, hD']
  rw [hsplit]
  simp only []
  have hUalpha : ∀ c ∈ pyUpper A, c.isAlpha = true := by
    intro c hc
    rcases List.mem_map.mp hc with ⟨a, ha, rfl⟩
    rw [isAlpha_toUpper]
    exact halpha a ha
  have hDnotalpha : ∀ c ∈ D, c.isAlpha = false :=
    fun c hc => isAlpha_of_isDigit c (hdig c hc)
  rw [List.takeWhile_append_of_pos hUalpha, takeWhile_eq_nil_of_all_neg hDnotalpha,
    List.append_nil, List.dropWhile_append_of_pos hUalpha,
    dropWhile_eq_self_of_all_neg hDnotalpha, if_neg]
  push_neg
  refine ⟨?_, hD, ?_⟩
  · simpa [pyUpper] using hA
  · simp only [List.all_eq_true]
    exact fun c hc => hdig c hc

/-- The reference shape is insensitive to upper-casing. -/
theorem refShape_pyUpper (l : List Char) : refShape (pyUpper l) ↔ refShape l := by
  have ha : (Char.isAlpha ∘ Char.toUpper) = Char.isAlpha := funext isAlpha_toUpper
  have hd : (Char.isDigit ∘ Char.toUpper) = Char.isDigit := funext isDigit_toUpper
  unfold refShape pyUpper
  rw [List.takeWhile_map, ha, List.dropWhile_map, ha, List.all_map, hd]
  simp

/-! ### The fetch cache -/

theorem fetch_gviz_csv_hit (net : String → HttpResp) (now ttl : Int) (cache : Cache)
    (url : String) (exp : Int) (rows : Table)
    (hc : cache url = some (exp, rows)) (hfresh : now < exp) :
    fetch_gviz_csv net now ttl cache url = .ok (rows, cache, 0) := by
  unfold fetch_gviz_csv
  rw [hc]
  show (if now < exp then Except.ok (rows, cache, 0)
        else fetchNetwork net now ttl cache url) = Except.ok (rows, cache, 0)
  rw [if_pos hfresh]

theorem fetch_gviz_csv_miss (net : String → HttpResp) (now ttl : Int) (cache : Cache)
    (url : String)
    (h : cache url = none ∨ ∃ exp rows, cache url = some (exp, rows) ∧ exp ≤ now) :
    fetch_gviz_csv net now ttl cache url = fetchNetwork net now ttl cache url := by
  unfold fetch_gviz_csv
  rcases h with h | ⟨exp, rows, h, hexp⟩
  · rw [h]
  · rw [h]
    show (if now < exp then Except.ok (rows, cache, 0)
          else fetchNetwork net now ttl cache url) = fetchNetwork net now ttl cache url
    rw [if_neg (by omega)]

theorem fetchNetwork_ok_iff (net : String → HttpResp) (now ttl : Int) (cache : Cache)
    (url : String) (tbl : Table) (cache' : Cache) (n : Nat) :
    fetchNetwork net now ttl cache url = .ok (tbl, cache', n) ↔
      isErrorStatus (net url).status = false ∧
      List.isPrefixOf "<!DOCTYPE html".data (pyStrip (net url).body.data) = false ∧
      tbl = csv_reader (splitlines (pyStrip (net url).body.data) []) ∧
      cache' = (fun u => if u = url then
          some (now + ttl, csv_reader (splitlines (pyStrip (net url).body.data) []))
        else cache u) ∧
      n = 1 := by
  unfold fetchNetwork
  simp only []
  by_cases h1 : isErrorStatus (net url).status
  · rw [if_pos h1]
    simp [h1]
  · rw [if_neg h1]
    by_cases h2 : List.isPrefixOf "<!DOCTYPE html".data (pyStrip (net url).body.data)
    · rw [if_pos h2]
      simp [h1, h2]
    · rw [if_neg h2]
      simp only [Except.ok.injEq, Prod.mk.injEq]
      constructor
      · rintro ⟨rfl, rfl, rfl⟩
        exact ⟨Bool.eq_false_iff.mpr h1, Bool.eq_false_iff.mpr h2, rfl, rfl, rfl⟩
      · rintro ⟨-, -, rfl, rfl, rfl⟩
        exact ⟨rfl, rfl, rfl⟩

theorem fetchNetwork_transport (net : String → HttpResp) (now ttl : Int) (cache : Cache)
    (url : String) (h1 : isErrorStatus (net url).status = true) :
    fetchNetwork net now ttl cache url = .error (.transport (net url).status) := by
  unfold fetchNetwork
  simp only []
  rw [if_pos h1]

theorem fetchNetwork_format (net : String → HttpResp) (now ttl : Int) (cache : Cache)
    (url : String) (h1 : isErrorStatus (net url).status = false)
    (h2 : List.isPrefixOf "<!DOCTYPE html".data (pyStrip (net url).body.data) = true) :
    fetchNetwork net now ttl cache url = .error .format := by
  unfold fetchNetwork
  simp only []
  rw [if_neg (by simp [h1]), if_pos h2]

/-- C1: the five concrete resolutions given in the spec. -/
theorem a1_to_index_spec_examples :
    a1_to_index "A1" = some (0, 0) ∧ a1_to_index "M19" = some (18, 12) ∧
    a1_to_index "Z1" = some (0, 25) ∧ a1_to_index "AA1" = some (0, 26) ∧
    a1_to_index "AB2" = some (1, 27) := by
  decide

/-- `get_a1` with a resolved coordinate, fully unfolded. -/
theorem get_a1_eq (rows : List (List String)) (a1 dflt : String) (r c : Int)
    (h : a1_to_index a1 = some (r, c)) :
    get_a1 rows a1 dflt =
      if r < 0 ∨ (rows.length : Int) ≤ r then some dflt
      else if c < 0 ∨ ((rows.getD r.toNat []).length : Int) ≤ c then some dflt
      else some (if String.mk (pyStrip ((rows.getD r.toNat []).getD c.toNat "").data) = ""
                 then dflt
                 else String.mk (pyStrip ((rows.getD r.toNat []).getD c.toNat "").data)) := by
  unfold get_a1
  rw [h]

/-- C2: resolving a reference of alphabetic column letters followed by the
decimal digits of a positive row number, then re-encoding the resulting
coordinate (row + 1 as digits, column + 1 in bijective base-26 letters),
yields the original reference upper-cased.  Letter runs of every length
are covered, in particular all columns through `ZZ`. -/
theorem resolve_reencode_roundtrip (L : List Char) (n : Nat) (hL : L ≠ [])
    (halpha : ∀ c ∈ L, c.isAlpha = true) (hn : 1 ≤ n) :
    ∃ r c : Int,
      a1_to_index (String.mk (L ++ natDigits n)) = some (r, c) ∧ 0 ≤ r ∧ 0 ≤ c ∧
      encodeRef r.toNat c.toNat = String.mk (pyUpper (L ++ natDigits n)) := by
  have hD := natDigits_isDigit n
  have hDne := natDigits_ne_nil n
  have hmain := a1_to_index_of_shape L (natDigits n) hL halpha hDne hD
  rw [digitsVal_natDigits] at hmain
  have hrange : ∀ c ∈ pyUpper L, 65 ≤ c.toNat ∧ c.toNat ≤ 90 := by
    intro c hc
    rcases List.mem_map.mp hc with ⟨a, ha, rfl⟩
    exact toUpper_toNat_range a (halpha a ha)
  have hcol : 1 ≤ colVal (pyUpper L) :=
    colVal_pos (by simpa [pyUpper] using hL) fun c hc => (hrange c hc).1
  refine ⟨(n : Int) - 1, (colVal (pyUpper L) : Int) - 1, hmain, by omega, by omega, ?_⟩
  unfold encodeRef
  have h1 : ((n : Int) - 1).toNat + 1 = n := by omega
  have h2 : ((colVal (pyUpper L) : Int) - 1).toNat + 1 = colVal (pyUpper L) := by omega
  rw [h1, h2, bijEncode_colVal (pyUpper L) hrange]
  have hsplit : pyUpper (L ++ natDigits n) = pyUpper L ++ natDigits n := by
    unfold pyUpper
    rw [List.map_append]
    congr 1
    have hid : (natDigits n).map Char.toUpper = (natDigits n).map id :=
      List.map_congr_left fun c hc => toUpper_of_digit c (hD c hc)
    rw [hid, List.map_id]
  rw [hsplit]

/-- Witness for C2 at the concrete reference `"ab12"`. -/
theorem resolve_reencode_roundtrip_witness :
    ∃ r c : Int,
      a1_to_index (String.mk (['a', 'b'] ++ natDigits 12)) = some (r, c) ∧ 0 ≤ r ∧ 0 ≤ c ∧
      encodeRef r.toNat c.toNat = String.mk (pyUpper (['a', 'b'] ++ natDigits 12)) :=
  resolve_reencode_roundtrip ['a', 'b'] 12 (by decide) (by decide) (by decide)

/-- C3 counterexample: the input `" A1 "` does not consist of a leading
alphabetic run followed by a non-empty digit suffix (it starts with a
space), yet the resolver succeeds on it instead of failing, so failure is
not equivalent to the raw input lacking that shape. -/
theorem invalid_reference_counterexample :
    ¬ refShape " A1 ".data ∧ a1_to_index " A1 " = some (0, 0) := by
  decide

/-- C3 amended: the resolver fails exactly when the whitespace-trimmed
input does not consist of a non-empty leading run of alphabetic characters
followed by a non-empty all-decimal-digit suffix; in particular it fails
on `""`, `"123"`, `"A"`, `"1A"` and `"A-1"`. -/
theorem invalid_reference_iff :
    (∀ s : String, a1_to_index s = none ↔ ¬ refShape (pyStrip s.data)) ∧
    a1_to_index "" = none ∧ a1_to_index "123" = none ∧ a1_to_index "A" = none ∧
    a1_to_index "1A" = none ∧ a1_to_index "A-1" = none := by
  refine ⟨?_, by decide, by decide, by decide, by decide, by decide⟩
  intro s
  have hC : (List.takeWhile Char.isAlpha (pyUpper (pyStrip s.data)) = [] ∨
        List.dropWhile Char.isAlpha (pyUpper (pyStrip s.data)) = [] ∨
        ¬ (List.dropWhile Char.isAlpha (pyUpper (pyStrip s.data))).all Char.isDigit = true) ↔
      ¬ refShape (pyStrip s.data) := by
    rw [← refShape_pyUpper (pyStrip s.data)]
    unfold refShape
    tauto
  unfold a1_to_index
  simp only []
  split_ifs with h
  · exact iff_of_true rfl (hC.mp h)
  · exact iff_of_false (by simp) fun hn => h (hC.mpr hn)

/-- C4: once the reference resolves, table lookup is total: it returns the
default when the row index is outside `[0, rowCount)`, the default when
the column index is outside that row's length, and otherwise the trimmed
cell, with the default substituted for an empty trimmed cell. -/
theorem get_a1_total_lookup (rows : List (List String)) (a1 dflt : String) (r c : Int)
    (h : a1_to_index a1 = some (r, c)) :
    (∃ v, get_a1 rows a1 dflt = some v) ∧
    ((r < 0 ∨ (rows.length : Int) ≤ r) → get_a1 rows a1 dflt = some dflt) ∧
    (0 ≤ r → r < (rows.length : Int) →
      ((c < 0 ∨ ((rows.getD r.toNat []).length : Int) ≤ c) →
        get_a1 rows a1 dflt = some dflt) ∧
      (0 ≤ c → c < ((rows.getD r.toNat []).length : Int) →
        get_a1 rows a1 dflt = some (
          if String.mk (pyStrip ((rows.getD r.toNat []).getD c.toNat "").data) = "" then dflt
          else String.mk (pyStrip ((rows.getD r.toNat []).getD c.toNat "").data)))) := by
  have he := get_a1_eq rows a1 dflt r c h
  refine ⟨?_, ?_, ?_⟩
  · by_cases h1 : r < 0 ∨ (rows.length : Int) ≤ r
    · exact ⟨dflt, by rw [he, if_pos h1]⟩
    · by_cases h2 : c < 0 ∨ ((rows.getD r.toNat []).length : Int) ≤ c
      · exact ⟨dflt, by rw [he, if_neg h1, if_pos h2]⟩
      · exact ⟨_, by rw [he, if_neg h1, if_neg h2]⟩
  · intro h1
    rw [he, if_pos h1]
  · intro hr hlt
    have h1 : ¬ (r < 0 ∨ (rows.length : Int) ≤ r) := by omega
    exact ⟨fun h2 => by rw [he, if_neg h1, if_pos h2],
      fun hc hclt => by rw [he, if_neg h1, if_neg (by omega)]⟩

/-- Witness for C4 on the one-cell table `[["x"]]` at `"A1"`. -/
theorem get_a1_total_lookup_witness :
    ∃ v, get_a1 [["x"]] "A1" "-" = some v :=
  (get_a1_total_lookup [["x"]] "A1" "-" 0 0 (by decide)).1

/-- C5: a cache entry whose expiry is strictly in the future is served
with no network access; starting from an empty cache, a first fetch
performs one network call, a second within the TTL window performs none
and returns the same table, a second after expiry performs one again; and
any result served with zero network calls comes from an entry whose
expiry strictly exceeds the current time. -/
theorem fetch_cache_ttl_behavior :
    (∀ (net : String → HttpResp) (now ttl : Int) (cache : Cache) (url : String)
        (exp : Int) (rows : Table), cache url = some (exp, rows) → now < exp →
        fetch_gviz_csv net now ttl cache url = .ok (rows, cache, 0)) ∧
    (∀ (net net₂ : String → HttpResp) (t₁ t₂ ttl : Int) (cache : Cache) (url : String)
        (tbl : Table) (cache₁ : Cache) (n₁ : Nat),
        cache url = none →
        fetch_gviz_csv net t₁ ttl cache url = .ok (tbl, cache₁, n₁) →
        n₁ = 1 ∧
        (t₂ < t₁ + ttl → fetch_gviz_csv net₂ t₂ ttl cache₁ url = .ok (tbl, cache₁, 0)) ∧
        (t₁ + ttl ≤ t₂ → ∀ (tbl₂ : Table) (cache₂ : Cache) (n₂ : Nat),
            fetch_gviz_csv net₂ t₂ ttl cache₁ url = .ok (tbl₂, cache₂, n₂) → n₂ = 1)) ∧
    (∀ (net : String → HttpResp) (now ttl : Int) (cache : Cache) (url : String)
        (tbl : Table) (cache' : Cache),
        fetch_gviz_csv net now ttl cache url = .ok (tbl, cache', 0) →
        ∃ exp rows, cache url = some (exp, rows) ∧ now < exp ∧ tbl = rows ∧ cache' = cache) := by
  refine ⟨fun net now ttl cache url exp rows hc hf =>
    fetch_gviz_csv_hit net now ttl cache url exp rows hc hf, ?_, ?_⟩
  · intro net net₂ t₁ t₂ ttl cache url tbl cache₁ n₁ hnone hfetch
    rw [fetch_gviz_csv_miss net t₁ ttl cache url (Or.inl hnone)] at hfetch
    obtain ⟨h1, h2, htbl, hcache, hn⟩ :=
      (fetchNetwork_ok_iff net t₁ ttl cache url tbl cache₁ n₁).mp hfetch
    subst htbl hcache hn
    refine ⟨rfl, fun ht => ?_, fun ht tbl₂ cache₂ n₂ hf2 => ?_⟩
    · exact fetch_gviz_csv_hit net₂ t₂ ttl _ url (t₁ + ttl)
        (csv_reader (splitlines (pyStrip (net url).body.data) [])) (by simp) ht
    · rw [fetch_gviz_csv_miss net₂ t₂ ttl _ url (Or.inr ⟨t₁ + ttl,
        csv_reader (splitlines (pyStrip (net url).body.data) []), by simp, ht⟩)] at hf2
      exact ((fetchNetwork_ok_iff net₂ t₂ ttl _ url tbl₂ cache₂ n₂).mp hf2).2.2.2.2
  · intro net now ttl cache url tbl cache' hfetch
    cases hcu : cache url with
    | none =>
        rw [fetch_gviz_csv_miss net now ttl cache url (Or.inl hcu)] at hfetch
        have h0 := ((fetchNetwork_ok_iff net now ttl cache url tbl cache' 0).mp hfetch).2.2.2.2
        exact absurd h0 (by decide)
    | some pr =>
        obtain ⟨exp, rows⟩ := pr
        by_cases hfresh : now < exp
        · have heq := fetch_gviz_csv_hit net now ttl cache url exp rows hcu hfresh
          rw [heq] at hfetch
          simp only [Except.ok.injEq, Prod.mk.injEq] at hfetch
          exact ⟨exp, rows, rfl, hfresh, hfetch.1.symm, hfetch.2.1.symm⟩
        · rw [fetch_gviz_csv_miss net now ttl cache url
            (Or.inr ⟨exp, rows, hcu, by omega⟩)] at hfetch
          have h0 := ((fetchNetwork_ok_iff net now ttl cache url tbl cache' 0).mp hfetch).2.2.2.2
          exact absurd h0 (by decide)

/-- Witness for C5: a fresh entry at time 100 with expiry 300 is served
from the cache with zero network calls. -/
theorem fetch_cache_ttl_behavior_witness :
    fetch_gviz_csv (fun _ => ⟨200, "a,b"⟩) 100 300
        (fun u => if u = "u" then some ((300 : Int), ([["a", "b"]] : Table)) else none) "u" =
      .ok ([["a", "b"]],
        (fun u => if u = "u" then some ((300 : Int), ([["a", "b"]] : Table)) else none), 0) :=
  fetch_cache_ttl_behavior.1 (fun _ => ⟨200, "a,b"⟩) 100 300
    (fun u => if u = "u" then some ((300 : Int), ([["a", "b"]] : Table)) else none) "u"
    300 [["a", "b"]] rfl (by decide)

/-- C6: with no fresh cache entry, a 4xx/5xx response yields a transport
error carrying the status code, and a success response whose trimmed body
starts with the HTML document marker yields a format error. -/
theorem fetch_error_taxonomy :
    (∀ (net : String → HttpResp) (now ttl : Int) (cache : Cache) (url : String),
        (cache url = none ∨ ∃ exp rows, cache url = some (exp, rows) ∧ exp ≤ now) →
        isErrorStatus (net url).status = true →
        fetch_gviz_csv net now ttl cache url = .error (.transport (net url).status)) ∧
    (∀ (net : String → HttpResp) (now ttl : Int) (cache : Cache) (url : String),
        (cache url = none ∨ ∃ exp rows, cache url = some (exp, rows) ∧ exp ≤ now) →
        isErrorStatus (net url).status = false →
        List.isPrefixOf "<!DOCTYPE html".data (pyStrip (net url).body.data) = true →
        fetch_gviz_csv net now ttl cache url = .error .format) := by
  constructor
  · intro net now ttl cache url hmiss h1
    rw [fetch_gviz_csv_miss net now ttl cache url hmiss]
    exact fetchNetwork_transport net now ttl cache url h1
  · intro net now ttl cache url hmiss h1 h2
    rw [fetch_gviz_csv_miss net now ttl cache url hmiss]
    exact fetchNetwork_format net now ttl cache url h1 h2

/-- Witness for C6: an HTTP 403 produces `transport 403`, and the body
`"<!DOCTYPE html><html>...</html>"` produces `format`. -/
theorem fetch_error_taxonomy_witness :
    fetch_gviz_csv (fun _ => ⟨403, ""⟩) 0 300 (fun _ => none) "u" =
      .error (.transport 403) ∧
    fetch_gviz_csv (fun _ => ⟨200, "<!DOCTYPE html><html>...</html>"⟩) 0 300
      (fun _ => none) "u" = .error .format := by
  constructor
  · exact fetch_error_taxonomy.1 (fun _ => ⟨403, ""⟩) 0 300 (fun _ => none) "u"
      (Or.inl rfl) (by decide)
  · exact fetch_error_taxonomy.2 (fun _ => ⟨200, "<!DOCTYPE html><html>...</html>"⟩) 0 300
      (fun _ => none) "u" (Or.inl rfl) (by decide) (by decide)

/-- C7 counterexample: `"A0"` matches `^[A-Za-z]+[0-9]+$` (letters `['A']`,
digits `['0']`), yet the resolver maps it to `(-1, 0)`, whose row
component is negative. -/
theorem nonneg_coordinate_counterexample :
    ("A0".data = ['A'] ++ ['0'] ∧ (['A'] : List Char) ≠ [] ∧
      (∀ c ∈ (['A'] : List Char), c.isAlpha = true) ∧ (['0'] : List Char) ≠ [] ∧
      (∀ c ∈ (['0'] : List Char), c.isDigit = true)) ∧
    a1_to_index "A0" = some (-1, 0) ∧ ¬ (0 : Int) ≤ -1 := by
  decide

/-- C7 amended: for a reference matching the syntax whose digit suffix has
value at least 1 (a row number ≥ 1, as the data model stipulates), both
components of the resolved coordinate are non-negative. -/
theorem nonneg_coordinate_of_valid_ref (s : String) (A D : List Char)
    (hs : s.data = A ++ D) (hA : A ≠ []) (halpha : ∀ c ∈ A, c.isAlpha = true)
    (hD : D ≠ []) (hdig : ∀ c ∈ D, c.isDigit = true) (hval : 1 ≤ digitsVal D) :
    ∃ r c : Int, a1_to_index s = some (r, c) ∧ 0 ≤ r ∧ 0 ≤ c := by
  have h := a1_to_index_of_shape A D hA halpha hD hdig
  have hs' : String.mk (A ++ D) = s := by rw [← hs, mk_data]
  rw [hs'] at h
  have hcol : 1 ≤ colVal (pyUpper A) :=
    colVal_pos (by simpa [pyUpper] using hA) fun c hc => by
      rcases List.mem_map.mp hc with ⟨a, ha, rfl⟩
      exact (toUpper_toNat_range a (halpha a ha)).1
  exact ⟨_, _, h, by omega, by omega⟩

/-- Witness for the amended C7 at `"b7"`. -/
theorem nonneg_coordinate_of_valid_ref_witness :
    ∃ r c : Int, a1_to_index "b7" = some (r, c) ∧ 0 ≤ r ∧ 0 ≤ c :=
  nonneg_coordinate_of_valid_ref "b7" ['b'] ['7'] (by decide) (by decide) (by decide)
    (by decide) (by decide) (by decide)

/-- C8: a successful network fetch overwrites exactly this URL's cache
entry with the parsed table and expiry `now + ttl`, returns that table,
and leaves the entry of every other URL unchanged. -/
theorem fetch_store_frame (net : String → HttpResp) (now ttl : Int) (cache : Cache)
    (url : String)
    (hmiss : cache url = none ∨ ∃ exp rows, cache url = some (exp, rows) ∧ exp ≤ now)
    (hstatus : isErrorStatus (net url).status = false)
    (hbody : List.isPrefixOf "<!DOCTYPE html".data (pyStrip (net url).body.data) = false) :
    ∃ (tbl : Table) (cache' : Cache),
      fetch_gviz_csv net now ttl cache url = .ok (tbl, cache', 1) ∧
      cache' url = some (now + ttl, tbl) ∧
      ∀ u : String, u ≠ url → cache' u = cache u := by
  rw [fetch_gviz_csv_miss net now ttl cache url hmiss]
  refine ⟨csv_reader (splitlines (pyStrip (net url).body.data) []),
    fun u => if u = url then
        some (now + ttl, csv_reader (splitlines (pyStrip (net url).body.data) []))
      else cache u,
    ?_, by simp, fun u hu => by simp [hu]⟩
  exact (fetchNetwork_ok_iff net now ttl cache url _ _ 1).mpr ⟨hstatus, hbody, rfl, rfl, rfl⟩

/-- Witness for C8 with a 200 response of body `"x"` on an empty cache. -/
theorem fetch_store_frame_witness :
    ∃ (tbl : Table) (cache' : Cache),
      fetch_gviz_csv (fun _ => ⟨200, "x"⟩) 0 300 (fun _ => none) "u" = .ok (tbl, cache', 1) ∧
      cache' "u" = some (0 + 300, tbl) ∧
      ∀ u : String, u ≠ "u" → cache' u = (fun _ => (none : Option (Int × Table))) u :=
  fetch_store_frame (fun _ => ⟨200, "x"⟩) 0 300 (fun _ => none) "u"
    (Or.inl rfl) (by decide) (by decide)

/-- C10: the resolver ignores surrounding whitespace (resolving a
whitespace-padded reference equals resolving the trimmed, upper-cased
one), and table lookup guards the negative row index produced by a
reference such as `"A0"` by returning the default instead of indexing
from the end. -/
theorem implicit_trim_and_negative_row_guard :
    (∀ (s : String) (pre post : List Char),
        (∀ ch ∈ pre, ch.isWhitespace = true) → (∀ ch ∈ post, ch.isWhitespace = true) →
        a1_to_index (String.mk (pre ++ s.data ++ post)) = a1_to_index s) ∧
    (∀ s : String, a1_to_index s = a1_to_index (String.mk (pyUpper (pyStrip s.data)))) ∧
    (∀ (rows : Table) (a1 dflt : String) (r c : Int),
        a1_to_index a1 = some (r, c) → r < 0 → get_a1 rows a1 dflt = some dflt) ∧
    a1_to_index " a1 " = a1_to_index "A1" ∧
    a1_to_index "A0" = some (-1, 0) := by
  have hneg : ∀ (rows : Table) (a1 dflt : String) (r c : Int),
      a1_to_index a1 = some (r, c) → r < 0 → get_a1 rows a1 dflt = some dflt := by
    intro rows a1 dflt r c h hr
    rw [get_a1_eq rows a1 dflt r c h, if_pos (Or.inl hr)]
  exact ⟨a1_to_index_ws_invariant, a1_to_index_norm, hneg, by decide, by decide⟩

/-- Witness for C10: `" A1 "` resolves like `"A1"`, and lookup of `"A0"`
returns the default. -/
theorem implicit_trim_and_negative_row_guard_witness :
    a1_to_index (String.mk ([' '] ++ "A1".data ++ [' '])) = a1_to_index "A1" ∧
    get_a1 [["x"]] "A0" "-" = some "-" :=
  ⟨implicit_trim_and_negative_row_guard.1 "A1" [' '] [' '] (by decide) (by decide),
   implicit_trim_and_negative_row_guard.2.2.1 [["x"]] "A0" "-" (-1) 0 (by decide) (by decide)⟩

/-- C9: parsing the CSV body `"a,\"b,c\",d\n1,2,3"` yields
`[["a","b,c","d"],["1","2","3"]]` — a quoted field keeps its embedded
comma. -/
theorem csv_embedded_delimiter_example :
    csv_reader (splitlines ("a,\"b,c\",d\n1,2,3").data []) =
      [["a", "b,c", "d"], ["1", "2", "3"]] := by
  decide

end App
